import Mathlib

/-!
Shallow embedding of the R8 CHIP-8 emulator core
(src/emulator/{display,emulator,opcode,rand}.rs).

Machine integers are modelled as `Nat` with explicit `% 2^w` at the
points where the Rust code wraps.  The modules `memory.rs`, `stack.rs`,
`keyboard.rs` and `error.rs` are not part of the sources; their
operations are modelled from the specification (each such definition is
marked `Modelled from the spec:`).  Everything else is translated
directly from the Rust sources.
-/

namespace R8

/-- Screen width in pixels (crate constant WIDTH = 64). -/
def WIDTH : Nat := 64

/-- Screen height in pixels (crate constant HEIGHT = 32). -/
def HEIGHT : Nat := 32

/-- Number of V registers (crate constant REGISTER_COUNT = 16). -/
def REGISTER_COUNT : Nat := 16

/-- Modelled from the spec: the error kinds surfaced by the missing
`error.rs` module (§7 of the specification). -/
inductive EmulatorError where
  | AddressOutOfRange
  | MemoryOutOfBounds
  | StackOverflow
  | StackUnderflow
  | RomTooLarge
  deriving DecidableEq, Repr

/-- The 64x32 monochrome display (display.rs).  `vram x y` is the pixel
at column `x`, row `y`; the Rust array `[[bool; HEIGHT]; WIDTH]` is
modelled as a function, indexed exactly as `vram[x][y]`. -/
structure Display where
  vram : Nat → Nat → Bool
  updated : Bool

/-- `Display::new`: all pixels off, `updated = false`. -/
def Display.new : Display := { vram := fun _ _ => false, updated := false }

/-- `Display::clear`: sets `updated` and zeroes the grid. -/
def Display.clear (_d : Display) : Display :=
  { vram := fun _ _ => false, updated := true }

/-- `Display::get`: read one cell (`self.vram[x][y]`). -/
def Display.get (d : Display) (x y : Nat) : Bool := d.vram x y

/-- Point update of the vram function (the effect of
`self.vram[x][y] ^= pixel` is an update at one index pair). -/
def updVram (f : Nat → Nat → Bool) (x y : Nat) (v : Bool) : Nat → Nat → Bool :=
  fun a b => if a = x ∧ b = y then v else f a b

/-- One iteration of the `for bit_index in 0..8` loop of `Display::set`.
The accumulator carries the vram function and the `result` variable.
The column is `(x + bit_index) as usize % WIDTH` where `x + bit_index`
is u8 arithmetic, hence the `% 256`.  The collision test is the one the
source actually performs: `!(old ^ pixel) && !pixel`. -/
def setStep (x yu value : Nat) (acc : (Nat → Nat → Bool) × Nat) (i : Nat) :
    (Nat → Nat → Bool) × Nat :=
  let xu := (x + i) % 256 % WIDTH
  let pixel : Bool := value &&& (0x80 >>> i) != 0
  let old := acc.1 xu yu
  (updVram acc.1 xu yu (xor old pixel),
   if !(xor old pixel) && !pixel then 1 else acc.2)

/-- `Display::set`: draws one 8-pixel sprite byte at `(x, y)`, returning
the updated display and the u8 result flag. -/
def Display.set (d : Display) (x y value : Nat) : Display × Nat :=
  let yu := y % HEIGHT
  let p := (List.range 8).foldl (setStep x yu value) (d.vram, 0)
  ({ vram := p.1, updated := true }, p.2)

/-- `InvertIterator::next` (display.rs): the iterator state is the
`current` pair; one call either yields a pixel and a new state or
terminates. -/
def gridNext (d : Display) (st : Nat × Nat) : Option (Bool × (Nat × Nat)) :=
  let st1 := if st.1 ≥ WIDTH then (0, st.2 + 1) else st
  if st1.2 ≥ HEIGHT then none
  else some (d.get st1.1 st1.2, (st1.1 + 1, st1.2))

/-- Fuel-bounded unfolding of the iterator: the list of pixels produced
by repeatedly calling `next` from state `st`. -/
def gridRun (d : Display) : Nat → (Nat × Nat) → List Bool
  | 0, _ => []
  | fuel + 1, st =>
    match gridNext d st with
    | none => []
    | some (b, st') => b :: gridRun d fuel st'

/-- `Display::grid`: a fresh iterator starting at `(0, 0)`; 2049 calls
to `next` are enough to exhaust the 64x32 grid. -/
def Display.grid (d : Display) : List Bool := gridRun d 2049 (0, 0)

/-- `RandGen` (rand.rs): a linear-congruential generator over
`Wrapping<u128>` values, modelled as `Nat` with explicit wrapping. -/
structure RandGen where
  multiplier : Nat
  increment : Nat
  modulus : Nat
  state : Nat

/-- Modelled from the spec: `RandGen::new` seeds from the wall clock,
falling back to the constant 5555 when the clock is unavailable; the
clock is not modelled, so the fallback seed is used. -/
def RandGen.new : RandGen :=
  { multiplier := 6364136223846793005
    increment := 1442695040888963407
    modulus := 2 ^ 128 - 1
    state := 5555 }

/-- `RandGen::next`: advance the LCG state (wrapping u128 arithmetic,
then `%` by the modulus field) and return the low 8 bits. -/
def RandGen.next (g : RandGen) : Nat × RandGen :=
  let s := (g.multiplier * g.state + g.increment) % 2 ^ 128 % g.modulus
  (s % 256, { g with state := s })

/-- Memory size in bytes. -/
def MEMORY_SIZE : Nat := 4096

/-- `Address::ENTRY_POINT` = 0x200. -/
def ENTRY_POINT : Nat := 0x200

/-- Modelled from the spec: `Address::add_assign` adds a delta and fails
with `AddressOutOfRange` if the result does not fit the 12-bit space
(missing memory.rs, spec §4.1 and §7). -/
def addrAdd (a delta : Nat) : Except EmulatorError Nat :=
  if a + delta < 4096 then .ok (a + delta) else .error .AddressOutOfRange

/-- Modelled from the spec: converting a raw 16-bit value to an
`Address` fails when the value is outside the 12-bit space (the
`try_into` used by the DXYN arm; missing memory.rs). -/
def addrTryFrom (n : Nat) : Except EmulatorError Nat :=
  if n < 4096 then .ok n else .error .AddressOutOfRange

/-- Modelled from the spec: `Address::new` masks its argument to the
12-bit space (missing memory.rs, spec §4.1). -/
def addrNew (n : Nat) : Nat := n % 4096

/-- Modelled from the spec: the font glyph bytes written in the reserved
low region of memory.  The glyph bit patterns are not given by the spec
and no claim depends on them; they are modelled as zero.  (Missing
memory.rs.) -/
def fontByte : Nat → Nat := fun _ => 0

/-- The 4096-byte memory, a byte-valued function (missing memory.rs;
shape from spec §4.2). -/
structure Memory where
  data : Nat → Nat

/-- Modelled from the spec: a fresh memory holds the font data in the
reserved low region and zeroes elsewhere. -/
def Memory.new : Memory := { data := fontByte }

/-- Modelled from the spec: `Memory::write_range` copies `len` bytes of
memory starting at `addr` into the caller's slice, failing with
`MemoryOutOfBounds` when the range exceeds the memory size (missing
memory.rs, spec §4.2). -/
def Memory.write_range (m : Memory) (addr len : Nat) :
    Except EmulatorError (List Nat) :=
  if addr + len ≤ MEMORY_SIZE then
    .ok ((List.range len).map fun j => m.data (addr + j))
  else .error .MemoryOutOfBounds

/-- Modelled from the spec: `Memory::read_range` copies the caller's
slice into memory starting at `addr`, failing with `MemoryOutOfBounds`
when the range exceeds the memory size (missing memory.rs, spec §4.2). -/
def Memory.read_range (m : Memory) (addr : Nat) (slice : List Nat) :
    Except EmulatorError Memory :=
  if addr + slice.length ≤ MEMORY_SIZE then
    .ok { data := fun a =>
            if addr ≤ a ∧ a < addr + slice.length then slice.getD (a - addr) 0
            else m.data a }
  else .error .MemoryOutOfBounds

/-- Modelled from the spec: `Memory::load_rom` fails with `RomTooLarge`
when the ROM exceeds `4096 - 0x200` bytes, otherwise writes the font
table in the low region and the ROM bytes starting at `ENTRY_POINT`
(missing memory.rs, spec §4.2 and §6). -/
def Memory.load_rom (_m : Memory) (rom : List Nat) :
    Except EmulatorError Memory :=
  if rom.length > MEMORY_SIZE - ENTRY_POINT then .error .RomTooLarge
  else .ok { data := fun a =>
               if ENTRY_POINT ≤ a ∧ a < ENTRY_POINT + rom.length then
                 rom.getD (a - ENTRY_POINT) 0
               else fontByte a }

/-- Stack capacity (spec §3: fixed maximum depth, classically 16). -/
def STACK_SIZE : Nat := 16

/-- Modelled from the spec: `Stack::push` fails with `StackOverflow`
when the stack is at capacity; the most recent entry is at the head
(missing stack.rs, spec §4.3). -/
def stackPush (s : List Nat) (a : Nat) : Except EmulatorError (List Nat) :=
  if s.length < STACK_SIZE then .ok (a :: s) else .error .StackOverflow

/-- Modelled from the spec: `Stack::pop` removes and returns the most
recent entry, failing with `StackUnderflow` on an empty stack (missing
stack.rs, spec §4.3). -/
def stackPop (s : List Nat) : Except EmulatorError (Nat × List Nat) :=
  match s with
  | [] => .error .StackUnderflow
  | a :: t => .ok (a, t)

/-- Modelled from the spec: the three-digit BCD decomposition of a byte
used by FX33 (missing bcd helper, spec §4.7 and glossary). -/
def bcd (v : Nat) : List Nat := [v / 100, v / 10 % 10, v % 10]

/-- Point update of the V-register file (`V![reg] = value`). -/
def updV (v : Nat → Nat) (i val : Nat) : Nat → Nat :=
  fun j => if j = i then val else v j

/-- u8 `wrapping_sub`, on byte-valued `Nat`s. -/
def wsub (a b : Nat) : Nat := (a + (256 - b % 256)) % 256

/-- The execution-state machine of the emulator (emulator.rs `State`). -/
inductive State where
  | New
  | Running
  | WaitingKey (x : Nat)
  deriving DecidableEq, Repr

/-- The emulator (emulator.rs).  The keyboard is the collaborator-owned
key-pressed predicate (missing keyboard.rs; spec §3 and §6: the core
only queries `is_set`). -/
structure Emulator where
  pc : Nat
  i : Nat
  v_registers : Nat → Nat
  sound_timer : Nat
  delay_timer : Nat
  stack : List Nat
  memory : Memory
  display : Display
  keyboard : Nat → Bool
  rand : RandGen
  state : State

/-- `Emulator::new`: fresh emulator in state `New`. -/
def Emulator.new : Emulator :=
  { pc := ENTRY_POINT
    i := 0
    v_registers := fun _ => 0
    sound_timer := 0
    delay_timer := 0
    stack := []
    memory := Memory.new
    display := Display.new
    keyboard := fun _ => false
    rand := RandGen.new
    state := .New }

/-- The `jump_if!` macro body: conditionally advance `pc` by another 2
(propagating the `add_assign` failure). -/
def skipIf (e : Emulator) (cond : Prop) [Decidable cond] :
    Except EmulatorError Emulator :=
  if cond then
    match addrAdd e.pc 2 with
    | .error err => .error err
    | .ok p => .ok { e with pc := p }
  else .ok e

/-- The `for row in 0..n` loop of the DXYN arm: one `Display::set` per
scanline, OR-accumulating the collision results, with the memory index
converted through `try_into`. -/
def drawRows (mem : Memory) (d : Display) (i xv yv : Nat) :
    List Nat → Nat → Except EmulatorError (Display × Nat)
  | [], vf => .ok (d, vf)
  | r :: rest, vf =>
    match addrTryFrom (i + r) with
    | .error err => .error err
    | .ok a =>
      let p := d.set xv (yv % HEIGHT + r) (mem.data a)
      drawRows mem p.1 i xv yv rest (vf ||| p.2)

/-- `Emulator::execute_opcode`: increments `pc` by 2, then dispatches on
the opcode nibbles `(w/4096%16, w/256%16, w/16%16, w%16)`.  The Rust
`match` is rendered as an if-chain testing the arms in source order. -/
def Emulator.execute_opcode (e : Emulator) (w : Nat) :
    Except EmulatorError Emulator :=
  match addrAdd e.pc 2 with
  | .error err => .error err
  | .ok pc2 =>
  let e := { e with pc := pc2 }
  if w / 4096 % 16 = 0 ∧ w / 256 % 16 = 0 ∧ w / 16 % 16 = 0xE ∧ w % 16 = 0 then
    .ok { e with display := e.display.clear }
  else if w / 4096 % 16 = 0 ∧ w / 256 % 16 = 0 ∧ w / 16 % 16 = 0xE ∧ w % 16 = 0xE then
    match stackPop e.stack with
    | .error err => .error err
    | .ok (a, s) => .ok { e with pc := a, stack := s }
  else if w / 4096 % 16 = 1 then
    .ok { e with pc := w % 4096 }
  else if w / 4096 % 16 = 2 ∨ w / 4096 % 16 = 0 then
    match stackPush e.stack e.pc with
    | .error err => .error err
    | .ok s => .ok { e with stack := s, pc := w % 4096 }
  else if w / 4096 % 16 = 3 then
    skipIf e (e.v_registers (w / 256 % 16) = w % 256)
  else if w / 4096 % 16 = 4 then
    skipIf e (e.v_registers (w / 256 % 16) ≠ w % 256)
  else if w / 4096 % 16 = 5 ∧ w % 16 = 0 then
    skipIf e (e.v_registers (w / 256 % 16) = e.v_registers (w / 16 % 16))
  else if w / 4096 % 16 = 6 then
    .ok { e with v_registers := updV e.v_registers (w / 256 % 16) (w % 256) }
  else if w / 4096 % 16 = 7 then
    let v1 := updV e.v_registers (w / 256 % 16)
      ((e.v_registers (w / 256 % 16) + w % 256) % 256)
    .ok { e with v_registers := v1 }
  else if w / 4096 % 16 = 8 ∧ w % 16 = 0 then
    let v1 := updV e.v_registers (w / 256 % 16) (e.v_registers (w / 16 % 16))
    .ok { e with v_registers := v1 }
  else if w / 4096 % 16 = 8 ∧ w % 16 = 1 then
    let v1 := updV e.v_registers (w / 256 % 16)
      (e.v_registers (w / 256 % 16) ||| e.v_registers (w / 16 % 16))
    .ok { e with v_registers := v1 }
  else if w / 4096 % 16 = 8 ∧ w % 16 = 2 then
    let v1 := updV e.v_registers (w / 256 % 16)
      (e.v_registers (w / 256 % 16) &&& e.v_registers (w / 16 % 16))
    .ok { e with v_registers := v1 }
  else if w / 4096 % 16 = 8 ∧ w % 16 = 3 then
    let v1 := updV e.v_registers (w / 256 % 16)
      (e.v_registers (w / 256 % 16) ^^^ e.v_registers (w / 16 % 16))
    .ok { e with v_registers := v1 }
  else if w / 4096 % 16 = 8 ∧ w % 16 = 4 then
    let r := e.v_registers (w / 256 % 16) + e.v_registers (w / 16 % 16)
    let v1 := updV e.v_registers (w / 256 % 16) (r % 256)
    let v2 := updV v1 0xF (if r &&& 0xFF00 ≠ 0 then 1 else 0)
    .ok { e with v_registers := v2 }
  else if w / 4096 % 16 = 8 ∧ w % 16 = 5 then
    let v1 := updV e.v_registers 0xF
      (if e.v_registers (w / 256 % 16) > e.v_registers (w / 16 % 16) then 1 else 0)
    let v2 := updV v1 (w / 256 % 16) (wsub (v1 (w / 256 % 16)) (v1 (w / 16 % 16)))
    .ok { e with v_registers := v2 }
  else if w / 4096 % 16 = 8 ∧ w % 16 = 6 then
    let v1 := updV e.v_registers 0xF (e.v_registers (w / 256 % 16) &&& 1)
    let v2 := updV v1 (w / 256 % 16) (v1 (w / 256 % 16) / 2)
    .ok { e with v_registers := v2 }
  else if w / 4096 % 16 = 8 ∧ w % 16 = 7 then
    let v1 := updV e.v_registers 0xF
      (if e.v_registers (w / 16 % 16) > e.v_registers (w / 256 % 16) then 1 else 0)
    let v2 := updV v1 (w / 256 % 16) (wsub (v1 (w / 16 % 16)) (v1 (w / 256 % 16)))
    .ok { e with v_registers := v2 }
  else if w / 4096 % 16 = 8 ∧ w % 16 = 0xE then
    let v1 := updV e.v_registers 0xF (e.v_registers (w / 256 % 16) / 128 &&& 1)
    let v2 := updV v1 (w / 256 % 16) (v1 (w / 256 % 16) * 2 % 256)
    .ok { e with v_registers := v2 }
  else if w / 4096 % 16 = 9 ∧ w % 16 = 0 then
    skipIf e (e.v_registers (w / 256 % 16) ≠ e.v_registers (w / 16 % 16))
  else if w / 4096 % 16 = 0xA then
    .ok { e with i := w % 4096 }
  else if w / 4096 % 16 = 0xB then
    match addrAdd e.pc (w % 4096 + e.v_registers 0) with
    | .error err => .error err
    | .ok p => .ok { e with pc := p }
  else if w / 4096 % 16 = 0xC then
    let p := e.rand.next
    .ok { e with v_registers := updV e.v_registers (w / 256 % 16) (p.1 &&& w % 256),
                 rand := p.2 }
  else if w / 4096 % 16 = 0xD then
    let v0 := updV e.v_registers 0xF 0
    let xv := v0 (w / 256 % 16)
    let yv := v0 (w / 16 % 16)
    match drawRows e.memory e.display e.i xv yv (List.range (w % 16)) 0 with
    | .error err => .error err
    | .ok p => .ok { e with display := p.1, v_registers := updV v0 0xF p.2 }
  else if w / 4096 % 16 = 0xE ∧ w / 16 % 16 = 9 ∧ w % 16 = 0xE then
    skipIf e (e.keyboard (e.v_registers (w / 256 % 16)) = true)
  else if w / 4096 % 16 = 0xE ∧ w / 16 % 16 = 0xA ∧ w % 16 = 1 then
    skipIf e (e.keyboard (e.v_registers (w / 256 % 16)) = false)
  else if w / 4096 % 16 = 0xF ∧ w / 16 % 16 = 0 ∧ w % 16 = 7 then
    .ok { e with v_registers := updV e.v_registers (w / 256 % 16) e.delay_timer }
  else if w / 4096 % 16 = 0xF ∧ w / 16 % 16 = 0 ∧ w % 16 = 0xA then
    .ok { e with state := .WaitingKey (w / 256 % 16) }
  else if w / 4096 % 16 = 0xF ∧ w / 16 % 16 = 1 ∧ w % 16 = 5 then
    .ok { e with delay_timer := e.v_registers (w / 256 % 16) }
  else if w / 4096 % 16 = 0xF ∧ w / 16 % 16 = 1 ∧ w % 16 = 8 then
    .ok { e with sound_timer := e.v_registers (w / 256 % 16) }
  else if w / 4096 % 16 = 0xF ∧ w / 16 % 16 = 1 ∧ w % 16 = 0xE then
    match addrAdd e.i (e.v_registers (w / 256 % 16)) with
    | .error err => .error err
    | .ok a => .ok { e with i := a }
  else if w / 4096 % 16 = 0xF ∧ w / 16 % 16 = 2 ∧ w % 16 = 9 then
    .ok { e with i := addrNew (e.v_registers (w / 256 % 16) * 5) }
  else if w / 4096 % 16 = 0xF ∧ w / 16 % 16 = 3 ∧ w % 16 = 3 then
    match e.memory.read_range e.i (bcd (e.v_registers (w / 256 % 16))) with
    | .error err => .error err
    | .ok m => .ok { e with memory := m }
  else if w / 4096 % 16 = 0xF ∧ w / 16 % 16 = 5 ∧ w % 16 = 5 then
    match e.memory.read_range e.i
        ((List.range (w / 256 % 16 + 1)).map fun j => e.v_registers j) with
    | .error err => .error err
    | .ok m => .ok { e with memory := m }
  else if w / 4096 % 16 = 0xF ∧ w / 16 % 16 = 6 ∧ w % 16 = 5 then
    match e.memory.write_range e.i (w / 256 % 16 + 1) with
    | .error err => .error err
    | .ok bytes =>
      let v1 := fun j => if j ≤ w / 256 % 16 then bytes.getD j 0 else e.v_registers j
      .ok { e with v_registers := v1 }
  else
    .ok e

/-- `Emulator::fetch_opcode`: read the two big-endian bytes at `pc` and
assemble the 16-bit opcode word. -/
def Emulator.fetch_opcode (e : Emulator) : Except EmulatorError Nat :=
  match e.memory.write_range e.pc 2 with
  | .error err => .error err
  | .ok bytes => .ok (bytes.getD 0 0 * 256 + bytes.getD 1 0)

/-- The tail of `Emulator::tick` after the state-machine check: timer
decrements, fetch, execute. -/
def Emulator.tickRun (e : Emulator) : Except EmulatorError Emulator :=
  let e := { e with
    sound_timer := if e.sound_timer > 0 then e.sound_timer - 1 else e.sound_timer
    delay_timer := if e.delay_timer > 0 then e.delay_timer - 1 else e.delay_timer }
  match e.fetch_opcode with
  | .error err => .error err
  | .ok w => e.execute_opcode w

/-- `Emulator::tick`: state-machine dispatch, then the normal
fetch-decode-execute tail. -/
def Emulator.tick (e : Emulator) : Except EmulatorError Emulator :=
  match e.state with
  | .New => .ok e
  | .WaitingKey x =>
    match (List.range 16).find? (fun k => e.keyboard k) with
    | none => .ok e
    | some key =>
      Emulator.tickRun { e with v_registers := updV e.v_registers x key
                                state := .Running }
  | .Running => e.tickRun

/-- `Emulator::load_rom`: resets registers, timers, stack and display,
then attempts the memory load, and only on success switches the state to
`Running`.  Since the Rust method mutates `self` before the fallible
memory load, it is modelled as returning the mutated emulator together
with an optional error. -/
def Emulator.load_rom (e : Emulator) (rom : List Nat) :
    Emulator × Option EmulatorError :=
  let e1 := { e with
    pc := ENTRY_POINT
    i := 0
    delay_timer := 0
    sound_timer := 0
    v_registers := fun _ => 0
    stack := []
    display := e.display.clear }
  match e1.memory.load_rom rom with
  | .error err => (e1, some err)
  | .ok m => ({ e1 with memory := m, state := .Running }, none)


/-- The complement of the dispatch table: `unrecognized w` holds when
the opcode word `w` matches none of the patterns of
`Emulator.execute_opcode`, so the fallback (logging) arm is taken.  The
conjuncts negate the arm conditions in source order. -/
def unrecognized (w : Nat) : Prop :=
  ¬(w / 4096 % 16 = 0 ∧ w / 256 % 16 = 0 ∧ w / 16 % 16 = 0xE ∧ w % 16 = 0) ∧
  ¬(w / 4096 % 16 = 0 ∧ w / 256 % 16 = 0 ∧ w / 16 % 16 = 0xE ∧ w % 16 = 0xE) ∧
  ¬(w / 4096 % 16 = 1) ∧
  ¬(w / 4096 % 16 = 2 ∨ w / 4096 % 16 = 0) ∧
  ¬(w / 4096 % 16 = 3) ∧
  ¬(w / 4096 % 16 = 4) ∧
  ¬(w / 4096 % 16 = 5 ∧ w % 16 = 0) ∧
  ¬(w / 4096 % 16 = 6) ∧
  ¬(w / 4096 % 16 = 7) ∧
  ¬(w / 4096 % 16 = 8 ∧ w % 16 = 0) ∧
  ¬(w / 4096 % 16 = 8 ∧ w % 16 = 1) ∧
  ¬(w / 4096 % 16 = 8 ∧ w % 16 = 2) ∧
  ¬(w / 4096 % 16 = 8 ∧ w % 16 = 3) ∧
  ¬(w / 4096 % 16 = 8 ∧ w % 16 = 4) ∧
  ¬(w / 4096 % 16 = 8 ∧ w % 16 = 5) ∧
  ¬(w / 4096 % 16 = 8 ∧ w % 16 = 6) ∧
  ¬(w / 4096 % 16 = 8 ∧ w % 16 = 7) ∧
  ¬(w / 4096 % 16 = 8 ∧ w % 16 = 0xE) ∧
  ¬(w / 4096 % 16 = 9 ∧ w % 16 = 0) ∧
  ¬(w / 4096 % 16 = 0xA) ∧
  ¬(w / 4096 % 16 = 0xB) ∧
  ¬(w / 4096 % 16 = 0xC) ∧
  ¬(w / 4096 % 16 = 0xD) ∧
  ¬(w / 4096 % 16 = 0xE ∧ w / 16 % 16 = 9 ∧ w % 16 = 0xE) ∧
  ¬(w / 4096 % 16 = 0xE ∧ w / 16 % 16 = 0xA ∧ w % 16 = 1) ∧
  ¬(w / 4096 % 16 = 0xF ∧ w / 16 % 16 = 0 ∧ w % 16 = 7) ∧
  ¬(w / 4096 % 16 = 0xF ∧ w / 16 % 16 = 0 ∧ w % 16 = 0xA) ∧
  ¬(w / 4096 % 16 = 0xF ∧ w / 16 % 16 = 1 ∧ w % 16 = 5) ∧
  ¬(w / 4096 % 16 = 0xF ∧ w / 16 % 16 = 1 ∧ w % 16 = 8) ∧
  ¬(w / 4096 % 16 = 0xF ∧ w / 16 % 16 = 1 ∧ w % 16 = 0xE) ∧
  ¬(w / 4096 % 16 = 0xF ∧ w / 16 % 16 = 2 ∧ w % 16 = 9) ∧
  ¬(w / 4096 % 16 = 0xF ∧ w / 16 % 16 = 3 ∧ w % 16 = 3) ∧
  ¬(w / 4096 % 16 = 0xF ∧ w / 16 % 16 = 5 ∧ w % 16 = 5) ∧
  ¬(w / 4096 % 16 = 0xF ∧ w / 16 % 16 = 6 ∧ w % 16 = 5)

set_option synthInstance.maxSize 1000 in
set_option synthInstance.maxHeartbeats 1000000 in
instance (w : Nat) : Decidable (unrecognized w) := by
  unfold unrecognized
  infer_instance

/-- The emulator used by several witnesses: freshly constructed, set
`Running`, with a chosen register file. -/
def mkRun (v : Nat → Nat) : Emulator :=
  { Emulator.new with state := .Running, v_registers := v }

/-- The waiting emulator used by the C3 witness: fresh, blocked on
`WaitingKey 3`, with only key 5 pressed. -/
def waitEmu : Emulator :=
  { Emulator.new with
    state := .WaitingKey 3
    keyboard := fun k => decide (k = 5) }

/-! ### Claim theorems -/

/-- C1: the claim states that `Display::set` returns 1 iff at least one
of the 8 bits turned a lit pixel off, and that drawing the same sprite
twice reports collision 1 on the second draw.  The code contradicts this
(and its own doc comment): its test `!(old ^ pixel) && !pixel` fires
when the target cell was unlit and the sprite bit clear.  On an all
clear display, drawing the zero byte erases nothing yet returns 1; and
after drawing 0xFF the second identical draw erases all 8 lit pixels yet
returns 0. -/
theorem C1_collision_flag_code_bug :
    (∀ x, x < 64 → ∀ y, y < 32 → Display.new.vram x y = false) ∧
    (Display.new.set 0 0 0).2 = 1 ∧
    (∀ x, x < 8 → (Display.new.set 0 0 0xFF).1.vram x 0 = true) ∧
    ((Display.new.set 0 0 0xFF).1.set 0 0 0xFF).2 = 0 ∧
    (∀ x, x < 8 → ((Display.new.set 0 0 0xFF).1.set 0 0 0xFF).1.vram x 0 = false) := by
  refine ⟨by decide, by decide, by decide, by decide, by decide⟩

/-- C2: executing BNNN adds `nnn + V0` on top of the already incremented
program counter: the result is `pc + 2 + (nnn + V0)` when that fits the
12-bit space and `AddressOutOfRange` otherwise. -/
theorem C2_bnnn_relative_jump (e : Emulator) (w : Nat)
    (_hs : e.state = .Running) (hw : w / 4096 % 16 = 0xB) :
    e.execute_opcode w =
      if e.pc + 2 + (w % 4096 + e.v_registers 0) < 4096 then
        .ok { e with pc := e.pc + 2 + (w % 4096 + e.v_registers 0) }
      else .error .AddressOutOfRange := by
  by_cases h1 : e.pc + 2 < 4096
  · by_cases h2 : e.pc + 2 + (w % 4096 + e.v_registers 0) < 4096
    · simp only [Emulator.execute_opcode, addrAdd, if_pos h1, hw]
      norm_num
      simp only [if_pos h2]
    · simp only [Emulator.execute_opcode, addrAdd, if_pos h1, hw]
      norm_num
      simp only [if_neg h2]
  · simp only [Emulator.execute_opcode, addrAdd, if_neg h1]
    rw [if_neg (by omega)]

/-- C2 witness: at `pc = 0x200`, `V0 = 5`, opcode `0xB100`, the new
program counter is `0x202 + 0x100 + 5 = 0x307`. -/
theorem C2_bnnn_relative_jump_witness :
    (mkRun (fun j => if j = 0 then 5 else 0)).execute_opcode 0xB100 =
      .ok { mkRun (fun j => if j = 0 then 5 else 0) with pc := 0x307 } := by
  have h := C2_bnnn_relative_jump (mkRun (fun j => if j = 0 then 5 else 0))
    0xB100 rfl (by decide)
  simpa [mkRun, Emulator.new] using h

/-- C4 counterexample: loading an oversized ROM into an emulator whose
`V0` is 7 fails with `RomTooLarge`, but the prior state is not left
unchanged: `V0` has been reset to 0. -/
theorem C4_rom_too_large_counterexample :
    ((mkRun (fun j => if j = 0 then 7 else 0)).load_rom
        (List.replicate 3585 0)).2 = some .RomTooLarge ∧
    (mkRun (fun j => if j = 0 then 7 else 0)).v_registers 0 = 7 ∧
    ((mkRun (fun j => if j = 0 then 7 else 0)).load_rom
        (List.replicate 3585 0)).1.v_registers 0 = 0 := by
  refine ⟨?_, rfl, ?_⟩ <;>
  · simp only [Emulator.load_rom, Memory.load_rom, List.length_replicate]
    norm_num [MEMORY_SIZE, ENTRY_POINT]

/-- C4 amended: loading a ROM longer than `4096 - 0x200` bytes fails
with `RomTooLarge`, but the emulator is not left unchanged: `pc`, `I`,
the V registers, the timers, the stack and the display have already been
reset by `load_rom`, while the execution state field keeps its prior
value (it is only set to `Running` on success). -/
theorem C4_rom_too_large_resets (e : Emulator) (rom : List Nat)
    (h : rom.length > 3584) :
    e.load_rom rom =
      ({ e with pc := ENTRY_POINT, i := 0, delay_timer := 0, sound_timer := 0,
                v_registers := fun _ => 0, stack := [],
                display := e.display.clear }, some .RomTooLarge) := by
  simp [Emulator.load_rom, Memory.load_rom, MEMORY_SIZE, ENTRY_POINT, h]

/-- C4 witness: the amended statement at a concrete emulator and a
3585-byte ROM. -/
theorem C4_rom_too_large_resets_witness :
    (mkRun (fun _ => 0)).load_rom (List.replicate 3585 0) =
      ({ mkRun (fun _ => 0) with
         pc := ENTRY_POINT, i := 0, delay_timer := 0, sound_timer := 0,
         v_registers := fun _ => 0, stack := [],
         display := (mkRun (fun _ => 0)).display.clear }, some .RomTooLarge) :=
  C4_rom_too_large_resets (mkRun (fun _ => 0)) (List.replicate 3585 0)
    (by rw [List.length_replicate]; omega)

/-- C5 counterexample: at `pc = 4094`, executing the unrecognized opcode
0x5001 returns `AddressOutOfRange` (the mandatory `pc` increment leaves
the 12-bit space), contradicting the claim that no error is returned. -/
theorem C5_unrecognized_counterexample :
    ({ Emulator.new with state := .Running, pc := 4094 } : Emulator).execute_opcode
      0x5001 = .error .AddressOutOfRange := rfl

/-- C5 amended: executing an opcode matching no dispatch pattern only
advances `pc` by 2 — all other fields are untouched and no error is
returned — provided the incremented `pc` still fits the 12-bit space;
when `pc + 2` leaves the space the tick fails with `AddressOutOfRange`. -/
theorem C5_unrecognized_nop (e : Emulator) (w : Nat)
    (_hs : e.state = .Running) (hu : unrecognized w) :
    e.execute_opcode w =
      if e.pc + 2 < 4096 then .ok { e with pc := e.pc + 2 }
      else .error .AddressOutOfRange := by
  obtain ⟨u1, u2, u3, u4, u5, u6, u7, u8, u9, u10, u11, u12, u13, u14, u15, u16,
    u17, u18, u19, u20, u21, u22, u23, u24, u25, u26, u27, u28, u29, u30, u31,
    u32, u33, u34⟩ := hu
  by_cases h1 : e.pc + 2 < 4096
  · simp only [Emulator.execute_opcode, addrAdd, if_pos h1, if_neg u1, if_neg u2,
      if_neg u3, if_neg u4, if_neg u5, if_neg u6, if_neg u7, if_neg u8, if_neg u9,
      if_neg u10, if_neg u11, if_neg u12, if_neg u13, if_neg u14, if_neg u15,
      if_neg u16, if_neg u17, if_neg u18, if_neg u19, if_neg u20, if_neg u21,
      if_neg u22, if_neg u23, if_neg u24, if_neg u25, if_neg u26, if_neg u27,
      if_neg u28, if_neg u29, if_neg u30, if_neg u31, if_neg u32, if_neg u33,
      if_neg u34]
  · simp only [Emulator.execute_opcode, addrAdd, if_neg h1]

/-- C5 witness: the amended statement at a fresh running emulator and
the unrecognized opcode 0x5001. -/
theorem C5_unrecognized_nop_witness :
    (mkRun (fun _ => 0)).execute_opcode 0x5001 =
      if (mkRun (fun _ => 0)).pc + 2 < 4096 then
        .ok { mkRun (fun _ => 0) with pc := (mkRun (fun _ => 0)).pc + 2 }
      else .error .AddressOutOfRange :=
  C5_unrecognized_nop (mkRun (fun _ => 0)) 0x5001 rfl (by decide)

set_option maxRecDepth 10000 in
/-- On byte sums (below 512), the source's carry test
`result & 0xFF00 != 0` is exactly `result > 255`. -/
theorem land_ff00_iff : ∀ s, s < 512 → ((s &&& 0xFF00 ≠ 0) ↔ 255 < s) := by
  decide

/-- C6: opcode 8XY4 stores the low 8 bits of the 16-bit sum `Vx + Vy`
into `Vx` and sets `VF` to 1 exactly when the sum exceeds 255. -/
theorem C6_add_with_carry (e : Emulator) (w : Nat)
    (_hs : e.state = .Running)
    (h8 : w / 4096 % 16 = 8) (h4 : w % 16 = 4)
    (hp : e.pc + 2 < 4096) (hx : w / 256 % 16 ≠ 0xF)
    (hvx : e.v_registers (w / 256 % 16) ≤ 255)
    (hvy : e.v_registers (w / 16 % 16) ≤ 255) :
    ∃ r, e.execute_opcode w = .ok r ∧
      r.pc = e.pc + 2 ∧
      r.v_registers (w / 256 % 16) =
        (e.v_registers (w / 256 % 16) + e.v_registers (w / 16 % 16)) % 256 ∧
      r.v_registers 0xF =
        (if 255 < e.v_registers (w / 256 % 16) + e.v_registers (w / 16 % 16)
         then 1 else 0) := by
  have hiff := land_ff00_iff
    (e.v_registers (w / 256 % 16) + e.v_registers (w / 16 % 16)) (by omega)
  simp only [Emulator.execute_opcode, addrAdd, if_pos hp, h8, h4]
  norm_num
  constructor
  · simp [updV, hx]
  · simp only [updV, if_pos]
    rcases Nat.lt_or_ge 255 (e.v_registers (w / 256 % 16) + e.v_registers (w / 16 % 16))
      with hlt | hle
    · rw [if_neg (fun h => (hiff.mpr hlt) h), if_pos hlt]
    · rw [if_pos (by by_contra hne; exact absurd (hiff.mp hne) (by omega)),
        if_neg (by omega)]

/-- C6 witness: `Vx = 0xFF, Vy = 0x01` yields `Vx = 0x00, VF = 1` (via
opcode 0x8124 with `V1 = 255`, `V2 = 1`). -/
theorem C6_add_with_carry_witness :
    ∃ r, (mkRun (fun j => if j = 1 then 255 else if j = 2 then 1 else 0)).execute_opcode
          0x8124 = .ok r ∧
      r.pc = (mkRun (fun j => if j = 1 then 255 else if j = 2 then 1 else 0)).pc + 2 ∧
      r.v_registers 1 = 0 ∧ r.v_registers 0xF = 1 := by
  obtain ⟨r, h1, h2, h3, h4⟩ := C6_add_with_carry
    (mkRun (fun j => if j = 1 then 255 else if j = 2 then 1 else 0)) 0x8124
    rfl (by decide) (by decide) (by decide) (by decide) (by decide) (by decide)
  exact ⟨r, h1, h2, by simpa using h3, by simpa using h4⟩

/-- C10: with `x = 0xF`, opcodes 8FY5 and 8FY7 write the borrow flag
into `VF` first, so the subtraction reads the freshly written flag `b`:
8FY5 leaves `VF = (b - Vy) mod 256` and 8FY7 leaves
`VF = (Vy - b) mod 256`, where `b` is computed from the pre-instruction
`VF` and `Vy`. -/
theorem C10_flags_register_aliasing (e : Emulator) (y : Nat)
    (_hs : e.state = .Running) (hy : y < 16) (hyF : y ≠ 0xF)
    (hp : e.pc + 2 < 4096) (hvy : e.v_registers y ≤ 255) :
    (∃ r, e.execute_opcode (0x8F05 + y * 16) = .ok r ∧
       r.v_registers 0xF =
         ((if e.v_registers 0xF > e.v_registers y then 1 else 0) +
            (256 - e.v_registers y)) % 256) ∧
    (∃ r, e.execute_opcode (0x8F07 + y * 16) = .ok r ∧
       r.v_registers 0xF =
         (e.v_registers y +
            (256 - (if e.v_registers y > e.v_registers 0xF then 1 else 0))) % 256) := by
  have hw1 : (0x8F05 + y * 16) / 4096 % 16 = 8 := by omega
  have hw2 : (0x8F05 + y * 16) / 256 % 16 = 0xF := by omega
  have hw3 : (0x8F05 + y * 16) / 16 % 16 = y := by omega
  have hw4 : (0x8F05 + y * 16) % 16 = 5 := by omega
  have hz1 : (0x8F07 + y * 16) / 4096 % 16 = 8 := by omega
  have hz2 : (0x8F07 + y * 16) / 256 % 16 = 0xF := by omega
  have hz3 : (0x8F07 + y * 16) / 16 % 16 = y := by omega
  have hz4 : (0x8F07 + y * 16) % 16 = 7 := by omega
  constructor
  · simp only [Emulator.execute_opcode, addrAdd, if_pos hp, hw1, hw2, hw3, hw4]
    norm_num
    simp [updV, wsub, hyF, Nat.mod_eq_of_lt (show e.v_registers y < 256 by omega)]
  · simp only [Emulator.execute_opcode, addrAdd, if_pos hp, hz1, hz2, hz3, hz4]
    norm_num
    by_cases hb : e.v_registers y > e.v_registers 0xF
    · simp [updV, wsub, hyF, hb]
    · simp [updV, wsub, hyF, hb]

/-- C10 witness: with `VF = 5`, `V2 = 10`: 8F25 leaves `VF = 246` and
8F27 leaves `VF = 9`. -/
theorem C10_flags_register_aliasing_witness :
    (∃ r, (mkRun (fun j => if j = 0xF then 5 else if j = 2 then 10 else 0)).execute_opcode
          0x8F25 = .ok r ∧ r.v_registers 0xF = 246) ∧
    (∃ r, (mkRun (fun j => if j = 0xF then 5 else if j = 2 then 10 else 0)).execute_opcode
          0x8F27 = .ok r ∧ r.v_registers 0xF = 9) := by
  obtain ⟨⟨r1, e1, f1⟩, ⟨r2, e2, f2⟩⟩ := C10_flags_register_aliasing
    (mkRun (fun j => if j = 0xF then 5 else if j = 2 then 10 else 0)) 2
    rfl (by decide) (by decide) (by decide) (by decide)
  constructor
  · refine ⟨r1, ?_, ?_⟩
    · exact e1
    · rw [f1]; decide
  · refine ⟨r2, ?_, ?_⟩
    · exact e2
    · rw [f2]; decide

/-- C7: a successful CALL (2NNN, or 0NNN other than 00E0/00EE) at
address `p` pushes `p + 2` and jumps to `nnn`; a later RET (00EE)
executed with that frame on top restores `pc` to `p + 2`, the
instruction after the CALL. -/
theorem C7_call_ret_round_trip (e : Emulator) (w : Nat)
    (_hs : e.state = .Running)
    (hw : w / 4096 % 16 = 2 ∨
      (w / 4096 % 16 = 0 ∧
        ¬(w / 256 % 16 = 0 ∧ w / 16 % 16 = 0xE ∧ w % 16 = 0) ∧
        ¬(w / 256 % 16 = 0 ∧ w / 16 % 16 = 0xE ∧ w % 16 = 0xE)))
    (hp : e.pc + 2 < 4096) (hst : e.stack.length < 16) :
    e.execute_opcode w =
      .ok { e with pc := w % 4096, stack := (e.pc + 2) :: e.stack } ∧
    ∀ s2 : Emulator, s2.stack = (e.pc + 2) :: e.stack → s2.pc + 2 < 4096 →
      s2.execute_opcode 0x00EE =
        .ok { s2 with pc := e.pc + 2, stack := e.stack } := by
  constructor
  · rcases hw with h2 | ⟨h0, hc1, hc2⟩
    · simp only [Emulator.execute_opcode, addrAdd, if_pos hp, h2]
      norm_num
      simp [stackPush, STACK_SIZE, hst]
    · simp only [Emulator.execute_opcode, addrAdd, if_pos hp, h0]
      rw [if_neg (by simp [hc1]), if_neg (by simp [hc2])]
      norm_num
      simp [stackPush, STACK_SIZE, hst]
  · intro s2 hstack hp2
    simp only [Emulator.execute_opcode, addrAdd, if_pos hp2]
    norm_num
    simp [stackPop, hstack]

/-- C7 witness: CALL 0x300 from `pc = 0x200` pushes 0x202 and jumps to
0x300; the following RET restores `pc = 0x202` and pops the frame. -/
theorem C7_call_ret_round_trip_witness :
    (mkRun (fun _ => 0)).execute_opcode 0x2300 =
      .ok { mkRun (fun _ => 0) with pc := 0x300, stack := [0x202] } ∧
    ({ mkRun (fun _ => 0) with pc := 0x300, stack := [0x202] } : Emulator).execute_opcode
        0x00EE =
      .ok { mkRun (fun _ => 0) with pc := 0x202, stack := [] } := by
  have h := C7_call_ret_round_trip (mkRun (fun _ => 0)) 0x2300 rfl
    (Or.inl (by decide)) (by decide) (by decide)
  refine ⟨h.1, ?_⟩
  exact h.2 { mkRun (fun _ => 0) with pc := 0x300, stack := [0x202] } rfl (by decide)

/-- Scanning `0..n` for the first index satisfying `p` finds the least
such index. -/
theorem find?_range_least (p : Nat → Bool) :
    ∀ (n k : Nat), k < n → p k = true → (∀ j, j < k → p j = false) →
      (List.range n).find? p = some k := by
  intro n
  induction n with
  | zero => intro k hk _ _; omega
  | succ n ih =>
    intro k hk hp hmin
    rw [List.range_succ, List.find?_append]
    rcases Nat.lt_or_ge k n with h | h
    · rw [ih k h hp hmin]
      rfl
    · have hkn : k = n := by omega
      subst hkn
      have h1 : (List.range k).find? p = none := by
        rw [List.find?_eq_none]
        intro a ha
        simp [hmin a (List.mem_range.mp ha)]
      rw [h1]
      simp [List.find?, hp]

/-- C3: a tick in state `WaitingKey x` leaves the emulator completely
unchanged when no key 0..15 is set, and otherwise stores the smallest
set key index into `V[x]`, switches to `Running`, and continues the same
tick with the timer decrement followed by fetch, decode and execute
(`tickRun`) — equivalently, behaves as a tick of the resumed `Running`
state. -/
theorem C3_waiting_key_tick (e : Emulator) (x : Nat)
    (hst : e.state = .WaitingKey x) :
    ((∀ k, k < 16 → e.keyboard k = false) → e.tick = .ok e) ∧
    (∀ k, k < 16 → e.keyboard k = true → (∀ j, j < k → e.keyboard j = false) →
      e.tick = Emulator.tickRun
          { e with v_registers := updV e.v_registers x k, state := .Running } ∧
      e.tick = Emulator.tick
          { e with v_registers := updV e.v_registers x k, state := .Running }) := by
  constructor
  · intro hall
    have hnone : (List.range 16).find? (fun k => e.keyboard k) = none := by
      rw [List.find?_eq_none]
      intro a ha
      simp [hall a (List.mem_range.mp ha)]
    simp [Emulator.tick, hst, hnone]
  · intro k hk hkset hmin
    have hsome : (List.range 16).find? (fun k => e.keyboard k) = some k :=
      find?_range_least _ 16 k hk hkset hmin
    constructor
    · simp [Emulator.tick, hst, hsome]
    · simp [Emulator.tick, hst, hsome]

/-- C3 witness: with no key pressed a waiting tick is a no-op; with key
5 pressed (only), the tick stores 5 into `V[3]` and runs the normal
tail on the resumed state. -/
theorem C3_waiting_key_tick_witness :
    ({ Emulator.new with state := .WaitingKey 3 } : Emulator).tick =
      .ok { Emulator.new with state := .WaitingKey 3 } ∧
    waitEmu.tick =
      Emulator.tickRun
        { waitEmu with
          state := .Running
          v_registers := updV waitEmu.v_registers 3 5 } := by
  constructor
  · exact (C3_waiting_key_tick _ 3 rfl).1 (fun k _ => rfl)
  · exact ((C3_waiting_key_tick waitEmu 3 rfl).2 5
      (by decide) (by decide) (by intro j hj; interval_cases j <;> rfl)).1

/-- One `next` call from the wrap-pending state `(64, y)` behaves
exactly like one from `(0, y + 1)`. -/
theorem gridRun_wrap (d : Display) (f y : Nat) :
    gridRun d f (64, y) = gridRun d f (0, y + 1) := by
  cases f with
  | zero => rfl
  | succ n =>
    have hnext : gridNext d (64, y) = gridNext d (0, y + 1) := by
      simp [gridNext, WIDTH]
    simp only [gridRun, hnext]

/-- From cell `(x, y)` with `m` cells remaining, the iterator yields
exactly those `m` cells in raster order (x inner, y outer). -/
theorem gridRun_spec (d : Display) :
    ∀ (m x y : Nat), x < 64 → y < 32 → 64 * y + x + m = 2048 →
      gridRun d (m + 1) (x, y) =
        (List.range m).map
          (fun i => d.get ((64 * y + x + i) % 64) ((64 * y + x + i) / 64)) := by
  intro m
  induction m with
  | zero => intro x y hx hy hsum; omega
  | succ m ih =>
    intro x y hx hy hsum
    have hnext : gridNext d (x, y) = some (d.get x y, (x + 1, y)) := by
      have h1 : ¬(x ≥ 64) := by omega
      have h2 : ¬(y ≥ 32) := by omega
      simp [gridNext, WIDTH, HEIGHT, h1, h2]
    have step : gridRun d (m + 1 + 1) (x, y) = d.get x y :: gridRun d (m + 1) (x + 1, y) := by
      simp only [gridRun, hnext]
    rcases Nat.lt_or_ge (x + 1) 64 with h64 | h64
    · rw [step, ih (x + 1) y h64 hy (by omega)]
      rw [List.range_succ_eq_map]
      simp only [List.map_cons, List.map_map]
      congr 1
      · rw [show 64 * y + x + 0 = 64 * y + x by omega]
        rw [show (64 * y + x) % 64 = x by omega, show (64 * y + x) / 64 = y by omega]
      · apply List.map_congr_left
        intro a _
        simp only [Function.comp]
        congr 1 <;> omega
    · have hx63 : x = 63 := by omega
      subst hx63
      rw [step, gridRun_wrap]
      rcases Nat.lt_or_ge (y + 1) 32 with h32 | h32
      · rw [ih 0 (y + 1) (by omega) h32 (by omega)]
        rw [List.range_succ_eq_map]
        simp only [List.map_cons, List.map_map]
        congr 1
        · rw [show 64 * y + 63 + 0 = 64 * y + 63 by omega]
          rw [show (64 * y + 63) % 64 = 63 by omega, show (64 * y + 63) / 64 = y by omega]
        · apply List.map_congr_left
          intro a _
          simp only [Function.comp]
          congr 1 <;> omega
      · have hy31 : y = 31 := by omega
        have hm : m = 0 := by omega
        subst hy31; subst hm
        have hz : gridRun d 1 (0, 32) = [] := by
          simp [gridRun, gridNext, WIDTH, HEIGHT]
        rw [hz]
        rw [List.range_succ_eq_map]
        simp only [List.range_zero, List.map_nil, List.map_cons]

/-- C9: `grid()` yields exactly 2048 booleans, the k-th being
`get (k mod 64) (k div 64)` — raster order with y outer and x inner;
the sequence is restartable since `grid` always starts a fresh iterator
at `(0, 0)`. -/
theorem C9_grid_raster_order (d : Display) (k : Nat) (hk : k < 2048) :
    (Display.grid d).length = 2048 ∧
    (Display.grid d)[k]? = some (d.get (k % 64) (k / 64)) := by
  have h := gridRun_spec d 2048 0 0 (by omega) (by omega) (by omega)
  have hg : Display.grid d = (List.range 2048).map (fun i => d.get (i % 64) (i / 64)) := by
    rw [Display.grid, show (2049 : Nat) = 2048 + 1 from rfl, h]
    apply List.map_congr_left
    intro a _
    congr 1 <;> omega
  constructor
  · rw [hg]
    simp
  · rw [hg, List.getElem?_map, List.getElem?_range hk]
    rfl

/-- C9 witness: on a fresh display the traversal has 2048 cells and
element 70 is cell `(6, 1)`. -/
theorem C9_grid_raster_order_witness :
    (Display.grid Display.new).length = 2048 ∧
    (Display.grid Display.new)[70]? = some (Display.new.get 6 1) :=
  C9_grid_raster_order Display.new 70 (by omega)

/-- Cells whose (column, row) pair is hit by none of the remaining loop
iterations are unchanged by the fold inside `Display::set`. -/
theorem setFold_other (x yu value : Nat) :
    ∀ (l : List Nat) (acc : (Nat → Nat → Bool) × Nat) (c row : Nat),
      (∀ i ∈ l, ¬(c = (x + i) % 256 % 64 ∧ row = yu)) →
      (l.foldl (setStep x yu value) acc).1 c row = acc.1 c row := by
  intro l
  induction l with
  | nil => intro acc c row _; rfl
  | cons a t ih =>
    intro acc c row h
    rw [List.foldl_cons, ih _ c row (fun i hi => h i (List.mem_cons_of_mem a hi))]
    simp only [setStep, WIDTH, updVram]
    rw [if_neg (h a (List.mem_cons_self a t))]

/-- Reading the cell a loop iteration writes: it holds the XOR of the
previous content with the sprite bit of that iteration. -/
theorem setStep_read (x yu value : Nat) (acc : (Nat → Nat → Bool) × Nat)
    (i c row : Nat) (h : c = (x + i) % 256 % 64 ∧ row = yu) :
    (setStep x yu value acc i).1 c row =
      xor (acc.1 ((x + i) % 256 % 64) yu) ((value &&& (0x80 >>> i)) != 0) := by
  simp only [setStep, WIDTH, updVram]
  rw [if_pos h]

/-- The source's per-bit sprite test `value & (0x80 >> i) != 0` reads
one bit: for the power form, it is `Nat.testBit`. -/
theorem land_pow_testBit (n k : Nat) : ((n &&& 2 ^ k) != 0) = n.testBit k := by
  rw [Nat.and_two_pow]
  cases h : n.testBit k <;> simp [h]

/-- Placement of one sprite bit: bit `b` (most significant first) is
XORed into column `(x + b) mod 64`, row `y mod 32`. -/
theorem set_cell_eq (d : Display) (x y value b : Nat) (hb : b < 8) :
    (d.set x y value).1.vram ((x + b) % 64) (y % 32) =
      xor (d.vram ((x + b) % 64) (y % 32)) (value.testBit (7 - b)) := by
  simp only [Display.set, HEIGHT]
  interval_cases b
  · rw [show List.range 8 = (([] : List Nat) ++ 0 :: [1, 2, 3, 4, 5, 6, 7]) by decide,
        List.foldl_append, List.foldl_cons,
        setFold_other x (y % 32) value [1, 2, 3, 4, 5, 6, 7]]
    · rw [setStep_read x (y % 32) value _ 0 _ _ (And.intro (by omega) rfl),
          setFold_other x (y % 32) value []]
      · rw [show ((0x80 : Nat) >>> 0) = 2 ^ 7 from rfl, land_pow_testBit,
            show (x + 0) % 256 % 64 = (x + 0) % 64 by omega]
      · intro i hi
        fin_cases hi <;> (rintro ⟨h1, -⟩; omega)
    · intro i hi
      fin_cases hi <;> (rintro ⟨h1, -⟩; omega)
  · rw [show List.range 8 = (([0] : List Nat) ++ 1 :: [2, 3, 4, 5, 6, 7]) by decide,
        List.foldl_append, List.foldl_cons,
        setFold_other x (y % 32) value [2, 3, 4, 5, 6, 7]]
    · rw [setStep_read x (y % 32) value _ 1 _ _ (And.intro (by omega) rfl),
          setFold_other x (y % 32) value [0]]
      · rw [show ((0x80 : Nat) >>> 1) = 2 ^ 6 from rfl, land_pow_testBit,
            show (x + 1) % 256 % 64 = (x + 1) % 64 by omega]
      · intro i hi
        fin_cases hi <;> (rintro ⟨h1, -⟩; omega)
    · intro i hi
      fin_cases hi <;> (rintro ⟨h1, -⟩; omega)
  · rw [show List.range 8 = (([0, 1] : List Nat) ++ 2 :: [3, 4, 5, 6, 7]) by decide,
        List.foldl_append, List.foldl_cons,
        setFold_other x (y % 32) value [3, 4, 5, 6, 7]]
    · rw [setStep_read x (y % 32) value _ 2 _ _ (And.intro (by omega) rfl),
          setFold_other x (y % 32) value [0, 1]]
      · rw [show ((0x80 : Nat) >>> 2) = 2 ^ 5 from rfl, land_pow_testBit,
            show (x + 2) % 256 % 64 = (x + 2) % 64 by omega]
      · intro i hi
        fin_cases hi <;> (rintro ⟨h1, -⟩; omega)
    · intro i hi
      fin_cases hi <;> (rintro ⟨h1, -⟩; omega)
  · rw [show List.range 8 = (([0, 1, 2] : List Nat) ++ 3 :: [4, 5, 6, 7]) by decide,
        List.foldl_append, List.foldl_cons,
        setFold_other x (y % 32) value [4, 5, 6, 7]]
    · rw [setStep_read x (y % 32) value _ 3 _ _ (And.intro (by omega) rfl),
          setFold_other x (y % 32) value [0, 1, 2]]
      · rw [show ((0x80 : Nat) >>> 3) = 2 ^ 4 from rfl, land_pow_testBit,
            show (x + 3) % 256 % 64 = (x + 3) % 64 by omega]
      · intro i hi
        fin_cases hi <;> (rintro ⟨h1, -⟩; omega)
    · intro i hi
      fin_cases hi <;> (rintro ⟨h1, -⟩; omega)
  · rw [show List.range 8 = (([0, 1, 2, 3] : List Nat) ++ 4 :: [5, 6, 7]) by decide,
        List.foldl_append, List.foldl_cons,
        setFold_other x (y % 32) value [5, 6, 7]]
    · rw [setStep_read x (y % 32) value _ 4 _ _ (And.intro (by omega) rfl),
          setFold_other x (y % 32) value [0, 1, 2, 3]]
      · rw [show ((0x80 : Nat) >>> 4) = 2 ^ 3 from rfl, land_pow_testBit,
            show (x + 4) % 256 % 64 = (x + 4) % 64 by omega]
      · intro i hi
        fin_cases hi <;> (rintro ⟨h1, -⟩; omega)
    · intro i hi
      fin_cases hi <;> (rintro ⟨h1, -⟩; omega)
  · rw [show List.range 8 = (([0, 1, 2, 3, 4] : List Nat) ++ 5 :: [6, 7]) by decide,
        List.foldl_append, List.foldl_cons,
        setFold_other x (y % 32) value [6, 7]]
    · rw [setStep_read x (y % 32) value _ 5 _ _ (And.intro (by omega) rfl),
          setFold_other x (y % 32) value [0, 1, 2, 3, 4]]
      · rw [show ((0x80 : Nat) >>> 5) = 2 ^ 2 from rfl, land_pow_testBit,
            show (x + 5) % 256 % 64 = (x + 5) % 64 by omega]
      · intro i hi
        fin_cases hi <;> (rintro ⟨h1, -⟩; omega)
    · intro i hi
      fin_cases hi <;> (rintro ⟨h1, -⟩; omega)
  · rw [show List.range 8 = (([0, 1, 2, 3, 4, 5] : List Nat) ++ 6 :: [7]) by decide,
        List.foldl_append, List.foldl_cons,
        setFold_other x (y % 32) value [7]]
    · rw [setStep_read x (y % 32) value _ 6 _ _ (And.intro (by omega) rfl),
          setFold_other x (y % 32) value [0, 1, 2, 3, 4, 5]]
      · rw [show ((0x80 : Nat) >>> 6) = 2 ^ 1 from rfl, land_pow_testBit,
            show (x + 6) % 256 % 64 = (x + 6) % 64 by omega]
      · intro i hi
        fin_cases hi <;> (rintro ⟨h1, -⟩; omega)
    · intro i hi
      fin_cases hi <;> (rintro ⟨h1, -⟩; omega)
  · rw [show List.range 8 = (([0, 1, 2, 3, 4, 5, 6] : List Nat) ++ 7 :: []) by decide,
        List.foldl_append, List.foldl_cons,
        setFold_other x (y % 32) value []]
    · rw [setStep_read x (y % 32) value _ 7 _ _ (And.intro (by omega) rfl),
          setFold_other x (y % 32) value [0, 1, 2, 3, 4, 5, 6]]
      · rw [show ((0x80 : Nat) >>> 7) = 2 ^ 0 from rfl, land_pow_testBit,
            show (x + 7) % 256 % 64 = (x + 7) % 64 by omega]
      · intro i hi
        fin_cases hi <;> (rintro ⟨h1, -⟩; omega)
    · intro i hi
      fin_cases hi <;> (rintro ⟨h1, -⟩; omega)

/-- `Display::set` touches only row `y mod 32`. -/
theorem set_row_other (d : Display) (x y value c row : Nat) (h : ¬(row = y % 32)) :
    (d.set x y value).1.vram c row = d.vram c row := by
  simp only [Display.set, HEIGHT]
  exact setFold_other x (y % 32) value (List.range 8) (d.vram, 0) c row
    (fun i _ hc => h hc.2)


/-- C8: each sprite bit `b` (most significant first) is XORed into the
cell at column `(x + b) mod 64`, row `y mod 32` — so an 8-wide sprite at
`x = 63` wraps its non-leading bits to columns 0..6 — and a DXYN draw
with `Vy = 31`, height 2 places its second scanline on row 0. -/
theorem C8_bit_placement_and_wrap :
    (∀ (d : Display) (x y value b : Nat), b < 8 →
      (d.set x y value).1.vram ((x + b) % 64) (y % 32) =
        xor (d.vram ((x + b) % 64) (y % 32)) (value.testBit (7 - b))) ∧
    (∀ (e : Emulator) (x0 y0 : Nat), e.state = .Running →
      x0 < 16 → y0 < 16 → x0 ≠ 0xF → y0 ≠ 0xF →
      e.v_registers y0 = 31 → e.pc + 2 < 4096 → e.i + 1 < 4096 →
      ∃ r, e.execute_opcode (0xD002 + x0 * 256 + y0 * 16) = .ok r ∧
        ∀ b, b < 8 →
          r.display.vram ((e.v_registers x0 + b) % 64) 0 =
            xor (e.display.vram ((e.v_registers x0 + b) % 64) 0)
              ((e.memory.data (e.i + 1)).testBit (7 - b))) := by
  constructor
  · intro d x y value b hb
    exact set_cell_eq d x y value b hb
  · intro e x0 y0 _hs hx0 hy0 hx0F hy0F hvy hp hi
    have hw1 : (0xD002 + x0 * 256 + y0 * 16) / 4096 % 16 = 0xD := by omega
    have hw2 : (0xD002 + x0 * 256 + y0 * 16) / 256 % 16 = x0 := by omega
    have hw3 : (0xD002 + x0 * 256 + y0 * 16) / 16 % 16 = y0 := by omega
    have hw4 : (0xD002 + x0 * 256 + y0 * 16) % 16 = 2 := by omega
    have hxv : updV e.v_registers 0xF 0 x0 = e.v_registers x0 := by
      simp [updV, hx0F]
    have hyv : updV e.v_registers 0xF 0 y0 = e.v_registers y0 := by
      simp [updV, hy0F]
    simp only [Emulator.execute_opcode, addrAdd, if_pos hp, hw1, hw2, hw3, hw4]
    norm_num
    simp only [hxv, hyv, hvy]
    -- reduce the two-row draw loop
    rw [show List.range 2 = [0, 1] by decide]
    simp only [drawRows, addrTryFrom]
    rw [if_pos (by omega), if_pos (by omega)]
    norm_num
    intro b hb
    simp only [HEIGHT]
    norm_num
    -- second scanline: y argument 31 % 32 + 1 = 32, drawn on row 0
    have h2 := set_cell_eq ((e.display.set (e.v_registers x0) (31 % 32 + 0)
        (e.memory.data (e.i + 0))).1) (e.v_registers x0) (31 % 32 + 1)
        (e.memory.data (e.i + 1)) b hb
    norm_num at h2
    rw [h2]
    -- first scanline is on row 31, leaving row 0 alone
    rw [set_row_other _ _ _ _ _ _ (by norm_num)]

/-- C8 witness: bit 3 of a sprite drawn at `x = 63` lands on column
`(63 + 3) mod 64 = 2`; a height-2 DXYN with `V1 = 31` XORs
`memory[I + 1]` into row 0. -/
theorem C8_bit_placement_and_wrap_witness :
    ((Display.new.set 63 5 0xFF).1.vram ((63 + 3) % 64) (5 % 32) =
      xor (Display.new.vram ((63 + 3) % 64) (5 % 32)) (Nat.testBit 0xFF (7 - 3))) ∧
    (∃ r, (mkRun (fun j => if j = 1 then 31 else 0)).execute_opcode
          (0xD002 + 0 * 256 + 1 * 16) = .ok r ∧
       ∀ b, b < 8 →
         r.display.vram
             (((mkRun (fun j => if j = 1 then 31 else 0)).v_registers 0 + b) % 64) 0 =
           xor ((mkRun (fun j => if j = 1 then 31 else 0)).display.vram
               (((mkRun (fun j => if j = 1 then 31 else 0)).v_registers 0 + b) % 64) 0)
             (((mkRun (fun j => if j = 1 then 31 else 0)).memory.data
                 ((mkRun (fun j => if j = 1 then 31 else 0)).i + 1)).testBit (7 - b))) :=
  ⟨C8_bit_placement_and_wrap.1 Display.new 63 5 0xFF 3 (by decide),
   C8_bit_placement_and_wrap.2 (mkRun (fun j => if j = 1 then 31 else 0)) 0 1 rfl
     (by decide) (by decide) (by decide) (by decide) rfl (by decide) (by decide)⟩

end R8
